import Mathlib

/-!
# Bitcode reader bindings (bitreader.go)

A shallow embedding of the three Go functions of `bitreader.go`
(`ParseBitcodeFile`, `ParseBitcodeFileInContext`, `ParseBitcodeInContext`).

* Go strings and byte slices are lists of bytes.
* The C heap is a list of blocks; `C.CString` allocates a block, `C.free`
  releases one, a `char*` is the index of a block (or NULL).
* The native library is a record of functions (`Native`), one per C entry
  point the file calls.  They are parameters: their behaviour is arbitrary.
* Every cgo call appends an event to a trace, so that the order and the
  arguments of the native calls can be stated.
* `defer` is a stack of deferred calls that runs, last in first out, when
  the function returns.
-/

namespace llvm

/-- A byte of a Go string, of a Go byte slice or of a C char array. -/
abbrev Byte := Fin 256

/-- A C pointer into the C heap: `none` is NULL, `some a` is block `a`. -/
abbrev Ptr := Option Nat

/-- Go type `Module`: the field `C` is the native `LLVMModuleRef`
(`0` is the nil handle, so `Module.mk 0` is the Go zero value `Module{}`). -/
structure Module where
  C : Nat
deriving DecidableEq, Repr

/-- Go type `Context`: the field `C` is the native `LLVMContextRef`. -/
structure Context where
  C : Nat
deriving DecidableEq, Repr

/-- The Go zero value `Module{}`. -/
def Module.zero : Module := ⟨0⟩

/-- A Go `error`: `none` is nil, `some msg` is an error whose `Error()` is `msg`. -/
abbrev GoError := Option (List Byte)

/-- Go `errors.New(text)`: always a non-nil error carrying `text`. -/
def errors.New (text : List Byte) : GoError := some text

/-- The bytes of a Go string literal (ASCII). -/
def goBytes (s : String) : List Byte := s.toList.map fun c => Fin.ofNat c.toNat

/-- What `LLVMCreateMemoryBufferWithContentsOfFile(Path, &buf, &errmsg)` does to
its results: the returned `LLVMBool`, the handle it leaves in `buf` (`none`:
NULL, the value `buf` had before) and the block it leaves behind `errmsg`
(`none`: `errmsg` stays NULL). -/
structure FileBufferOutcome (B : Type) where
  status : Int
  OutMemBuf : Option B
  OutMessage : Option (List Byte)
deriving DecidableEq

/-- What `LLVMParseBitcode2` / `LLVMParseBitcodeInContext2` do: the returned
`LLVMBool`, the handle left in `*OutModule` (`0`: nil, the value it had before)
and the diagnostic text the library produced.  Neither entry point has a message
argument: the diagnostic goes to the diagnostic handler of the context, it is not
handed back to the caller. -/
structure ParseOutcome where
  status : Int
  OutModule : Nat
  diagnostic : List Byte
deriving DecidableEq

/-- The native library, one function per C entry point used by `bitreader.go`.
`B` is the type of memory buffer objects; an `LLVMMemoryBufferRef` is an
`Option B` (`none`: NULL).  Pointer arguments are passed as the bytes the
callee reads through them. -/
structure Native (B : Type) where
  /-- Argument: the C string at `Path`. -/
  LLVMCreateMemoryBufferWithContentsOfFile : List Byte → FileBufferOutcome B
  /-- Arguments: the bytes of the range `[InputData, InputData + InputDataLength)`,
  `InputDataLength`, and the C string at `BufferName`. -/
  LLVMCreateMemoryBufferWithMemoryRangeCopy : List Byte → Nat → List Byte → Option B
  /-- Argument: `MemBuf`. -/
  LLVMParseBitcode2 : Option B → ParseOutcome
  /-- Arguments: `ContextRef`, `MemBuf`. -/
  LLVMParseBitcodeInContext2 : Nat → Option B → ParseOutcome

/-- One cgo call, with its arguments (a pointer argument is followed by the bytes
the callee reads through it) and what it returned. -/
inductive Event (B : Type) where
  | CString (s : List Byte) (ret : Ptr)
  | free (p : Ptr)
  | LLVMCreateMemoryBufferWithContentsOfFile (Path : Ptr) (path : List Byte)
      (ret : FileBufferOutcome B)
  | LLVMCreateMemoryBufferWithMemoryRangeCopy (InputData : Ptr) (range : List Byte)
      (InputDataLength : Nat) (BufferName : Ptr) (name : List Byte) (ret : Option B)
  | LLVMParseBitcode2 (MemBuf : Option B) (ret : ParseOutcome)
  | LLVMParseBitcodeInContext2 (ContextRef : Nat) (MemBuf : Option B) (ret : ParseOutcome)
  | LLVMDisposeMemoryBuffer (MemBuf : Option B)
deriving DecidableEq

/-- The state the Go code runs in: the C heap (a block is `none` once freed) and
the trace of cgo calls made so far. -/
structure World (B : Type) where
  heap : List (Option (List Byte))
  trace : List (Event B)

variable {B : Type}

/-- The bytes of the block a pointer refers to (nothing for NULL, a freed block or
an address that was never allocated). -/
def World.load (w : World B) : Ptr → List Byte
  | none => []
  | some a => ((w.heap.getD a none).getD [])

/-- A C string: the bytes before the first zero byte. -/
def cstr (mem : List Byte) : List Byte := mem.takeWhile fun c => c != 0

/-- cgo `C.CString(s)`: a fresh block holding the bytes of `s` and a zero
terminator. -/
def C.CString (w : World B) (s : List Byte) : Ptr × World B :=
  (some w.heap.length,
    { heap := w.heap ++ [some (s ++ [0])]
      trace := w.trace ++ [Event.CString s (some w.heap.length)] })

/-- cgo `C.GoString(p)`: the C string at `p`, the empty string for NULL. -/
def C.GoString (w : World B) (p : Ptr) : List Byte := cstr (w.load p)

/-- C `free(p)`: releases the block; `free(NULL)` does nothing. -/
def C.free (w : World B) (p : Ptr) : World B :=
  { heap := match p with
      | none => w.heap
      | some a => w.heap.set a none
    trace := w.trace ++ [Event.free p] }

/-- Go `uint(n)` on a 64-bit platform (`len` of a slice is an `int`, so below
`2 ^ 63`, and the conversion is then exact). -/
def uint (n : Nat) : Nat := n % 2 ^ 64

/-- cgo `C.size_t(n)` on a 64-bit platform. -/
def C.size_t (n : Nat) : Nat := n % 2 ^ 64

/-- The call `C.LLVMCreateMemoryBufferWithContentsOfFile(Path, &buf, &errmsg)` with
`buf` and `errmsg` both nil before the call.  Returns the status and the values of
`buf` and `errmsg` after the call; a message the library leaves is a new block of
the C heap. -/
def C.LLVMCreateMemoryBufferWithContentsOfFile (N : Native B) (w : World B) (Path : Ptr) :
    (Int × Option B × Ptr) × World B :=
  let path := cstr (w.load Path)
  let r := N.LLVMCreateMemoryBufferWithContentsOfFile path
  let errmsg : Ptr := r.OutMessage.map fun _ => w.heap.length
  ((r.status, r.OutMemBuf, errmsg),
    { heap := match r.OutMessage with
        | none => w.heap
        | some blk => w.heap ++ [some blk]
      trace := w.trace ++ [Event.LLVMCreateMemoryBufferWithContentsOfFile Path path r] })

/-- The call `C.LLVMCreateMemoryBufferWithMemoryRangeCopy(InputData, InputDataLength,
BufferName)`. -/
def C.LLVMCreateMemoryBufferWithMemoryRangeCopy (N : Native B) (w : World B)
    (InputData : Ptr) (InputDataLength : Nat) (BufferName : Ptr) : Option B × World B :=
  let range := (w.load InputData).take InputDataLength
  let name := cstr (w.load BufferName)
  let buf := N.LLVMCreateMemoryBufferWithMemoryRangeCopy range InputDataLength name
  (buf,
    { heap := w.heap
      trace := w.trace ++ [Event.LLVMCreateMemoryBufferWithMemoryRangeCopy InputData range
        InputDataLength BufferName name buf] })

/-- The call `C.LLVMParseBitcode2(MemBuf, &m.C)`. -/
def C.LLVMParseBitcode2 (N : Native B) (w : World B) (MemBuf : Option B) :
    ParseOutcome × World B :=
  (N.LLVMParseBitcode2 MemBuf,
    { heap := w.heap
      trace := w.trace ++ [Event.LLVMParseBitcode2 MemBuf (N.LLVMParseBitcode2 MemBuf)] })

/-- The call `C.LLVMParseBitcodeInContext2(ContextRef, MemBuf, &m.C)`. -/
def C.LLVMParseBitcodeInContext2 (N : Native B) (w : World B) (ContextRef : Nat)
    (MemBuf : Option B) : ParseOutcome × World B :=
  (N.LLVMParseBitcodeInContext2 ContextRef MemBuf,
    { heap := w.heap
      trace := w.trace ++ [Event.LLVMParseBitcodeInContext2 ContextRef MemBuf
        (N.LLVMParseBitcodeInContext2 ContextRef MemBuf)] })

/-- The call `C.LLVMDisposeMemoryBuffer(MemBuf)`. -/
def C.LLVMDisposeMemoryBuffer (w : World B) (MemBuf : Option B) : World B :=
  { heap := w.heap
    trace := w.trace ++ [Event.LLVMDisposeMemoryBuffer MemBuf] }

/-- A call registered with `defer`; its argument was evaluated at the `defer`
statement. -/
inductive Deferred (B : Type) where
  | free (p : Ptr)
  | LLVMDisposeMemoryBuffer (MemBuf : Option B)

/-- Runs the deferred calls of a returning function; the head of the list is the
call deferred last, which runs first. -/
def runDeferred (w : World B) : List (Deferred B) → World B
  | [] => w
  | Deferred.free p :: ds => runDeferred (C.free w p) ds
  | Deferred.LLVMDisposeMemoryBuffer b :: ds => runDeferred (C.LLVMDisposeMemoryBuffer w b) ds

/-- Go `ParseBitcodeFile(name)` (bitreader.go lines 30-51). -/
def ParseBitcodeFile (N : Native B) (w0 : World B) (name : List Byte) :
    (Module × GoError) × World B :=
  -- var buf C.LLVMMemoryBufferRef; var errmsg *C.char
  -- var cfilename *C.char = C.CString(name)
  let cfilename := (C.CString w0 name).1
  let w1 := (C.CString w0 name).2
  -- defer C.free(unsafe.Pointer(cfilename))
  let d1 : List (Deferred B) := [Deferred.free cfilename]
  -- result := C.LLVMCreateMemoryBufferWithContentsOfFile(cfilename, &buf, &errmsg)
  let call := C.LLVMCreateMemoryBufferWithContentsOfFile N w1 cfilename
  let result := call.1.1
  let buf := call.1.2.1
  let errmsg := call.1.2.2
  let w2 := call.2
  if result ≠ 0 then
    -- err := errors.New(C.GoString(errmsg)); C.free(unsafe.Pointer(errmsg))
    let err := errors.New (C.GoString w2 errmsg)
    let w3 := C.free w2 errmsg
    -- return Module{}, err
    ((Module.zero, err), runDeferred w3 d1)
  else
    -- defer C.LLVMDisposeMemoryBuffer(buf)
    let d2 := Deferred.LLVMDisposeMemoryBuffer buf :: d1
    -- var m Module; if C.LLVMParseBitcode2(buf, &m.C) == 0 { return m, nil }
    let parse := C.LLVMParseBitcode2 N w2 buf
    let m : Module := ⟨parse.1.OutModule⟩
    let w3 := parse.2
    if parse.1.status = 0 then
      ((m, none), runDeferred w3 d2)
    else
      -- err := errors.New(C.GoString(errmsg)); C.free(unsafe.Pointer(errmsg))
      let err := errors.New (C.GoString w3 errmsg)
      let w4 := C.free w3 errmsg
      -- return Module{}, err
      ((Module.zero, err), runDeferred w4 d2)

/-- Go `ParseBitcodeFileInContext(context, name)` (bitreader.go lines 55-76). -/
def ParseBitcodeFileInContext (N : Native B) (w0 : World B) (context : Context)
    (name : List Byte) : (Module × GoError) × World B :=
  -- var buf C.LLVMMemoryBufferRef; var errmsg *C.char
  -- var cfilename *C.char = C.CString(name)
  let cfilename := (C.CString w0 name).1
  let w1 := (C.CString w0 name).2
  -- defer C.free(unsafe.Pointer(cfilename))
  let d1 : List (Deferred B) := [Deferred.free cfilename]
  -- result := C.LLVMCreateMemoryBufferWithContentsOfFile(cfilename, &buf, &errmsg)
  let call := C.LLVMCreateMemoryBufferWithContentsOfFile N w1 cfilename
  let result := call.1.1
  let buf := call.1.2.1
  let errmsg := call.1.2.2
  let w2 := call.2
  if result ≠ 0 then
    -- err := errors.New(C.GoString(errmsg)); C.free(unsafe.Pointer(errmsg))
    let err := errors.New (C.GoString w2 errmsg)
    let w3 := C.free w2 errmsg
    -- return Module{}, err
    ((Module.zero, err), runDeferred w3 d1)
  else
    -- defer C.LLVMDisposeMemoryBuffer(buf)
    let d2 := Deferred.LLVMDisposeMemoryBuffer buf :: d1
    -- var m Module; if C.LLVMParseBitcodeInContext2(context.C, buf, &m.C) == 0 { return m, nil }
    let parse := C.LLVMParseBitcodeInContext2 N w2 context.C buf
    let m : Module := ⟨parse.1.OutModule⟩
    let w3 := parse.2
    if parse.1.status = 0 then
      ((m, none), runDeferred w3 d2)
    else
      -- err := errors.New(C.GoString(errmsg)); C.free(unsafe.Pointer(errmsg))
      let err := errors.New (C.GoString w3 errmsg)
      let w4 := C.free w3 errmsg
      -- return Module{}, err
      ((Module.zero, err), runDeferred w4 d2)

/-- Go `ParseBitcodeInContext(context, name, bitcode)` (bitreader.go lines 80-100). -/
def ParseBitcodeInContext (N : Native B) (w0 : World B) (context : Context)
    (name : List Byte) (bitcode : List Byte) : (Module × GoError) × World B :=
  -- var buf C.LLVMMemoryBufferRef; var csize = C.size_t(uint(len(bitcode)))
  let csize := C.size_t (uint bitcode.length)
  -- var cname *C.char = C.CString(name); defer C.free(unsafe.Pointer(cname))
  let cname := (C.CString w0 name).1
  let w1 := (C.CString w0 name).2
  let d1 : List (Deferred B) := [Deferred.free cname]
  -- cbitcode := C.CString(string(bitcode)); defer C.free(unsafe.Pointer(cbitcode))
  -- (the Go string `string(bitcode)` has exactly the bytes of `bitcode`)
  let cbitcode := (C.CString w1 bitcode).1
  let w2 := (C.CString w1 bitcode).2
  let d2 := Deferred.free cbitcode :: d1
  -- buf = C.LLVMCreateMemoryBufferWithMemoryRangeCopy(cbitcode, csize, cname)
  let call := C.LLVMCreateMemoryBufferWithMemoryRangeCopy N w2 cbitcode csize cname
  let buf := call.1
  let w3 := call.2
  -- defer C.LLVMDisposeMemoryBuffer(buf)
  let d3 := Deferred.LLVMDisposeMemoryBuffer buf :: d2
  -- var m Module; if C.LLVMParseBitcodeInContext2(context.C, buf, &m.C) == 0 { return m, nil }
  let parse := C.LLVMParseBitcodeInContext2 N w3 context.C buf
  let m : Module := ⟨parse.1.OutModule⟩
  let w4 := parse.2
  if parse.1.status = 0 then
    ((m, none), runDeferred w4 d3)
  else
    -- err := errors.New("failed to parse bitcode"); return Module{}, err
    let err := errors.New (goBytes "failed to parse bitcode")
    ((Module.zero, err), runDeferred w4 d3)


/-! ## Observations on a trace -/

/-- The outcome a parse entry point returned, for a parse event. -/
def Event.parseOutcome : Event B → Option ParseOutcome
  | Event.LLVMParseBitcode2 _ r => some r
  | Event.LLVMParseBitcodeInContext2 _ _ r => some r
  | _ => none

/-- The outcomes of the calls of either parse entry point, in call order. -/
def parseCalls (tr : List (Event B)) : List ParseOutcome := tr.filterMap Event.parseOutcome

/-- The handle passed to `LLVMDisposeMemoryBuffer`, for a disposal event. -/
def Event.disposedBuffer : Event B → Option (Option B)
  | Event.LLVMDisposeMemoryBuffer b => some b
  | _ => none

/-- The handles passed to `LLVMDisposeMemoryBuffer`, in call order. -/
def disposed (tr : List (Event B)) : List (Option B) := tr.filterMap Event.disposedBuffer

/-- The buffer a constructor call produced: the file constructor produces one when
it returns status 0, the copy constructor returns one on every call. -/
def Event.obtainedBuffer : Event B → Option (Option B)
  | Event.LLVMCreateMemoryBufferWithContentsOfFile _ _ r =>
      if r.status = 0 then some r.OutMemBuf else none
  | Event.LLVMCreateMemoryBufferWithMemoryRangeCopy _ _ _ _ _ b => some b
  | _ => none

/-- The buffers obtained from the buffer constructors, in call order. -/
def obtained (tr : List (Event B)) : List (Option B) := tr.filterMap Event.obtainedBuffer

/-- The path the file constructor read through its `Path` argument. -/
def Event.filePath : Event B → Option (List Byte)
  | Event.LLVMCreateMemoryBufferWithContentsOfFile _ path _ => some path
  | _ => none

/-- The paths presented to the file-backed buffer constructor, in call order. -/
def filePaths (tr : List (Event B)) : List (List Byte) := tr.filterMap Event.filePath

/-- The memory range handed to the copy constructor: pointer, bytes, length. -/
def Event.copyRange : Event B → Option (Ptr × List Byte × Nat)
  | Event.LLVMCreateMemoryBufferWithMemoryRangeCopy p range len _ _ _ => some (p, range, len)
  | _ => none

/-- The memory ranges handed to the copy constructor, in call order. -/
def copyRanges (tr : List (Event B)) : List (Ptr × List Byte × Nat) :=
  tr.filterMap Event.copyRange

/-- Turns a call of the context-free parse entry point into the call of the
context-bound one with context handle `c`, same buffer and same outcome. -/
def Event.bindContext (c : Nat) : Event B → Event B
  | Event.LLVMParseBitcode2 b r => Event.LLVMParseBitcodeInContext2 c b r
  | e => e

/-- The events of a trace other than the calls of a parse entry point. -/
def nonParse (tr : List (Event B)) : List (Event B) :=
  tr.filter fun e => e.parseOutcome.isNone

/-- Buffer discipline of one operation.  Either no buffer was obtained, and then
nothing is parsed or disposed; or exactly one buffer `b` was obtained, before the
one parse call `e`, and the one disposal of the trace is the disposal of `b`, after
`e` has returned. -/
def BufferDiscipline (tr : List (Event B)) : Prop :=
  (obtained tr = [] ∧ parseCalls tr = [] ∧ disposed tr = []) ∨
  ∃ pre e mid post b r,
    tr = pre ++ [e] ++ mid ++ [Event.LLVMDisposeMemoryBuffer b] ++ post ∧
    e.parseOutcome = some r ∧ obtained pre = [b] ∧
    obtained tr = [b] ∧ parseCalls tr = [r] ∧ disposed tr = [b]

/-! ## A concrete native library, used to run the functions on concrete inputs -/

/-- The first bytes of a bitcode stream: `BC` followed by `0xC0DE`. -/
def bitcodeMagic : List Byte := [0x42, 0x43, 0xC0, 0xDE]

/-- A test parser over buffers that are their own contents: accepts exactly the
buffer holding `bitcodeMagic` (writing module handle `7`), rejects every other
buffer, NULL included, with status `1`, and on rejection still leaves the handle
`9` in `*OutModule`. -/
def testParse (buf : Option (List Byte)) : ParseOutcome :=
  if buf = some bitcodeMagic then ⟨0, 7, []⟩
  else ⟨1, 9, goBytes "Invalid bitcode signature"⟩

/-- A test library over buffers that are their own contents.  The disk holds `a.bc`
(contents `bitcodeMagic`) and `junk.bc` (sixteen zero bytes); opening anything else
fails with status `1` and a diagnostic.  The copy constructor returns the range. -/
def testDisk : Native (List Byte) where
  LLVMCreateMemoryBufferWithContentsOfFile := fun path =>
    if path = goBytes "a.bc" then ⟨0, some bitcodeMagic, none⟩
    else if path = goBytes "junk.bc" then ⟨0, some (List.replicate 16 0), none⟩
    else ⟨1, none, some (goBytes "No such file or directory" ++ [0])⟩
  LLVMCreateMemoryBufferWithMemoryRangeCopy := fun range _ _ => some range
  LLVMParseBitcode2 := testParse
  LLVMParseBitcodeInContext2 := fun _ buf => testParse buf

/-- A test library whose copy constructor yields no buffer (a NULL handle). -/
def testNullCopy : Native (List Byte) where
  LLVMCreateMemoryBufferWithContentsOfFile := fun _ => ⟨1, none, none⟩
  LLVMCreateMemoryBufferWithMemoryRangeCopy := fun _ _ _ => none
  LLVMParseBitcode2 := testParse
  LLVMParseBitcodeInContext2 := fun _ buf => testParse buf

/-! ## The C heap -/

theorem getD_heap (h l : List (Option (List Byte))) (i : Nat) :
    (h ++ l).getD (h.length + i) none = l.getD i none := by
  rw [List.getD_append_right _ _ _ _ (by omega)]
  simp

theorem load_fresh (h : List (Option (List Byte))) (tr : List (Event B)) (blk : List Byte) :
    World.load (⟨h ++ [some blk], tr⟩ : World B) (some h.length) = blk := by
  have e := getD_heap h [some blk] 0
  rw [Nat.add_zero] at e
  show ((h ++ [some blk]).getD h.length none).getD [] = blk
  rw [e]
  rfl

theorem load_fresh_fst (h : List (Option (List Byte))) (tr : List (Event B))
    (blk blk2 : List Byte) :
    World.load (⟨h ++ [some blk] ++ [some blk2], tr⟩ : World B) (some h.length) = blk := by
  have e := getD_heap h [some blk, some blk2] 0
  rw [Nat.add_zero] at e
  show ((h ++ [some blk] ++ [some blk2]).getD h.length none).getD [] = blk
  rw [List.append_assoc]
  show ((h ++ [some blk, some blk2]).getD h.length none).getD [] = blk
  rw [e]
  rfl

theorem load_fresh_snd (h : List (Option (List Byte))) (tr : List (Event B))
    (blk blk2 : List Byte) :
    World.load (⟨h ++ [some blk] ++ [some blk2], tr⟩ : World B) (some (h.length + 1)) = blk2 := by
  have e := getD_heap h [some blk, some blk2] 1
  show ((h ++ [some blk] ++ [some blk2]).getD (h.length + 1) none).getD [] = blk2
  rw [List.append_assoc]
  show ((h ++ [some blk, some blk2]).getD (h.length + 1) none).getD [] = blk2
  rw [e]
  rfl

/-- The message block the file constructor left is what `errmsg` points to. -/
theorem load_errmsg (h : List (Option (List Byte))) (tr : List (Event B)) (blk : List Byte)
    (msg : Option (List Byte)) :
    World.load (⟨match msg with
        | none => h ++ [some blk]
        | some m => h ++ [some blk] ++ [some m], tr⟩ : World B)
      (msg.map fun _ => (h ++ [some blk]).length) = msg.getD [] := by
  cases msg with
  | none => rfl
  | some m =>
    have e := @load_fresh_snd B h tr blk m
    simpa using e

theorem cstr_terminated (s : List Byte) : cstr (s ++ [0]) = cstr s := by
  induction s with
  | nil => rfl
  | cons a s ih =>
    unfold cstr at ih ⊢
    by_cases ha : a = 0
    · subst ha; rfl
    · have : (a != 0) = true := by simpa using ha
      simp only [List.cons_append, List.takeWhile_cons, this, if_true, ih]

theorem cstr_eq_self (s : List Byte) (hs : (0 : Byte) ∉ s) : cstr s = s := by
  unfold cstr
  rw [List.takeWhile_eq_self_iff]
  intro x hx
  have : x ≠ 0 := fun e => hs (e ▸ hx)
  simpa using this

/-! ## What each function returns and which calls it makes -/

theorem ParseBitcodeFile_ret (N : Native B) (h : List (Option (List Byte)))
    (tr : List (Event B)) (name : List Byte) :
    (ParseBitcodeFile N ⟨h, tr⟩ name).1 =
      if (N.LLVMCreateMemoryBufferWithContentsOfFile (cstr name)).status ≠ 0 then
        (Module.zero,
          some (cstr ((N.LLVMCreateMemoryBufferWithContentsOfFile (cstr name)).OutMessage.getD [])))
      else if (N.LLVMParseBitcode2
          (N.LLVMCreateMemoryBufferWithContentsOfFile (cstr name)).OutMemBuf).status = 0 then
        (⟨(N.LLVMParseBitcode2
          (N.LLVMCreateMemoryBufferWithContentsOfFile (cstr name)).OutMemBuf).OutModule⟩, none)
      else
        (Module.zero,
          some (cstr ((N.LLVMCreateMemoryBufferWithContentsOfFile (cstr name)).OutMessage.getD []))) := by
  simp only [ParseBitcodeFile, C.CString, C.LLVMCreateMemoryBufferWithContentsOfFile,
    C.LLVMParseBitcode2, C.GoString, C.free, runDeferred, C.LLVMDisposeMemoryBuffer, load_fresh,
    load_errmsg, errors.New, cstr_terminated]
  split
  · rfl
  · split <;> rfl

theorem ParseBitcodeFile_trace (N : Native B) (h : List (Option (List Byte)))
    (name : List Byte) :
    (ParseBitcodeFile N ⟨h, []⟩ name).2.trace =
      [Event.CString name (some h.length),
        Event.LLVMCreateMemoryBufferWithContentsOfFile (some h.length) (cstr name)
          (N.LLVMCreateMemoryBufferWithContentsOfFile (cstr name))] ++
      if (N.LLVMCreateMemoryBufferWithContentsOfFile (cstr name)).status ≠ 0 then
        [Event.free ((N.LLVMCreateMemoryBufferWithContentsOfFile (cstr name)).OutMessage.map
            fun _ => h.length + 1),
          Event.free (some h.length)]
      else if (N.LLVMParseBitcode2
          (N.LLVMCreateMemoryBufferWithContentsOfFile (cstr name)).OutMemBuf).status = 0 then
        [Event.LLVMParseBitcode2 (N.LLVMCreateMemoryBufferWithContentsOfFile (cstr name)).OutMemBuf
            (N.LLVMParseBitcode2 (N.LLVMCreateMemoryBufferWithContentsOfFile (cstr name)).OutMemBuf),
          Event.LLVMDisposeMemoryBuffer
            (N.LLVMCreateMemoryBufferWithContentsOfFile (cstr name)).OutMemBuf,
          Event.free (some h.length)]
      else
        [Event.LLVMParseBitcode2 (N.LLVMCreateMemoryBufferWithContentsOfFile (cstr name)).OutMemBuf
            (N.LLVMParseBitcode2 (N.LLVMCreateMemoryBufferWithContentsOfFile (cstr name)).OutMemBuf),
          Event.free ((N.LLVMCreateMemoryBufferWithContentsOfFile (cstr name)).OutMessage.map
            fun _ => h.length + 1),
          Event.LLVMDisposeMemoryBuffer
            (N.LLVMCreateMemoryBufferWithContentsOfFile (cstr name)).OutMemBuf,
          Event.free (some h.length)] := by
  simp only [ParseBitcodeFile, C.CString, C.LLVMCreateMemoryBufferWithContentsOfFile,
    C.LLVMParseBitcode2, C.GoString, C.free, runDeferred, C.LLVMDisposeMemoryBuffer, load_fresh,
    cstr_terminated]
  split
  · simp
  · split <;> simp

theorem ParseBitcodeFileInContext_ret (N : Native B) (h : List (Option (List Byte)))
    (tr : List (Event B)) (context : Context) (name : List Byte) :
    (ParseBitcodeFileInContext N ⟨h, tr⟩ context name).1 =
      if (N.LLVMCreateMemoryBufferWithContentsOfFile (cstr name)).status ≠ 0 then
        (Module.zero,
          some (cstr ((N.LLVMCreateMemoryBufferWithContentsOfFile (cstr name)).OutMessage.getD [])))
      else if (N.LLVMParseBitcodeInContext2 context.C
          (N.LLVMCreateMemoryBufferWithContentsOfFile (cstr name)).OutMemBuf).status = 0 then
        (⟨(N.LLVMParseBitcodeInContext2 context.C
          (N.LLVMCreateMemoryBufferWithContentsOfFile (cstr name)).OutMemBuf).OutModule⟩, none)
      else
        (Module.zero,
          some (cstr ((N.LLVMCreateMemoryBufferWithContentsOfFile (cstr name)).OutMessage.getD []))) := by
  simp only [ParseBitcodeFileInContext, C.CString, C.LLVMCreateMemoryBufferWithContentsOfFile,
    C.LLVMParseBitcodeInContext2, C.GoString, C.free, runDeferred, C.LLVMDisposeMemoryBuffer,
    load_fresh, load_errmsg, errors.New, cstr_terminated]
  split
  · rfl
  · split <;> rfl

theorem ParseBitcodeFileInContext_trace (N : Native B) (h : List (Option (List Byte)))
    (context : Context) (name : List Byte) :
    (ParseBitcodeFileInContext N ⟨h, []⟩ context name).2.trace =
      [Event.CString name (some h.length),
        Event.LLVMCreateMemoryBufferWithContentsOfFile (some h.length) (cstr name)
          (N.LLVMCreateMemoryBufferWithContentsOfFile (cstr name))] ++
      if (N.LLVMCreateMemoryBufferWithContentsOfFile (cstr name)).status ≠ 0 then
        [Event.free ((N.LLVMCreateMemoryBufferWithContentsOfFile (cstr name)).OutMessage.map
            fun _ => h.length + 1),
          Event.free (some h.length)]
      else if (N.LLVMParseBitcodeInContext2 context.C
          (N.LLVMCreateMemoryBufferWithContentsOfFile (cstr name)).OutMemBuf).status = 0 then
        [Event.LLVMParseBitcodeInContext2 context.C
            (N.LLVMCreateMemoryBufferWithContentsOfFile (cstr name)).OutMemBuf
            (N.LLVMParseBitcodeInContext2 context.C
              (N.LLVMCreateMemoryBufferWithContentsOfFile (cstr name)).OutMemBuf),
          Event.LLVMDisposeMemoryBuffer
            (N.LLVMCreateMemoryBufferWithContentsOfFile (cstr name)).OutMemBuf,
          Event.free (some h.length)]
      else
        [Event.LLVMParseBitcodeInContext2 context.C
            (N.LLVMCreateMemoryBufferWithContentsOfFile (cstr name)).OutMemBuf
            (N.LLVMParseBitcodeInContext2 context.C
              (N.LLVMCreateMemoryBufferWithContentsOfFile (cstr name)).OutMemBuf),
          Event.free ((N.LLVMCreateMemoryBufferWithContentsOfFile (cstr name)).OutMessage.map
            fun _ => h.length + 1),
          Event.LLVMDisposeMemoryBuffer
            (N.LLVMCreateMemoryBufferWithContentsOfFile (cstr name)).OutMemBuf,
          Event.free (some h.length)] := by
  simp only [ParseBitcodeFileInContext, C.CString, C.LLVMCreateMemoryBufferWithContentsOfFile,
    C.LLVMParseBitcodeInContext2, C.GoString, C.free, runDeferred, C.LLVMDisposeMemoryBuffer,
    load_fresh, cstr_terminated]
  split
  · simp
  · split <;> simp

/-- The length as the copy constructor receives it. -/
theorem csize_eq (n : Nat) (hn : n < 2 ^ 63) : C.size_t (uint n) = n := by
  unfold C.size_t uint
  omega

theorem take_terminated (b : List Byte) : (b ++ [0]).take b.length = b := by
  simp

theorem ParseBitcodeInContext_ret (N : Native B) (h : List (Option (List Byte)))
    (tr : List (Event B)) (context : Context) (name bitcode : List Byte) (buf : Option B)
    (hbuf : buf = N.LLVMCreateMemoryBufferWithMemoryRangeCopy
      ((bitcode ++ [0]).take (C.size_t (uint bitcode.length)))
      (C.size_t (uint bitcode.length)) (cstr name)) :
    (ParseBitcodeInContext N ⟨h, tr⟩ context name bitcode).1 =
      if (N.LLVMParseBitcodeInContext2 context.C buf).status = 0 then
        (⟨(N.LLVMParseBitcodeInContext2 context.C buf).OutModule⟩, none)
      else (Module.zero, some (goBytes "failed to parse bitcode")) := by
  subst hbuf
  simp only [ParseBitcodeInContext, C.CString, C.LLVMCreateMemoryBufferWithMemoryRangeCopy,
    C.LLVMParseBitcodeInContext2, runDeferred, C.LLVMDisposeMemoryBuffer, C.free,
    List.length_append, List.length_singleton, load_fresh_fst, load_fresh_snd, errors.New,
    cstr_terminated]
  split <;> rfl

theorem ParseBitcodeInContext_trace (N : Native B) (h : List (Option (List Byte)))
    (context : Context) (name bitcode : List Byte) (buf : Option B)
    (hbuf : buf = N.LLVMCreateMemoryBufferWithMemoryRangeCopy
      ((bitcode ++ [0]).take (C.size_t (uint bitcode.length)))
      (C.size_t (uint bitcode.length)) (cstr name)) :
    (ParseBitcodeInContext N ⟨h, []⟩ context name bitcode).2.trace =
      [Event.CString name (some h.length),
        Event.CString bitcode (some (h.length + 1)),
        Event.LLVMCreateMemoryBufferWithMemoryRangeCopy (some (h.length + 1))
          ((bitcode ++ [0]).take (C.size_t (uint bitcode.length)))
          (C.size_t (uint bitcode.length)) (some h.length) (cstr name) buf,
        Event.LLVMParseBitcodeInContext2 context.C buf (N.LLVMParseBitcodeInContext2 context.C buf),
        Event.LLVMDisposeMemoryBuffer buf,
        Event.free (some (h.length + 1)),
        Event.free (some h.length)] := by
  subst hbuf
  simp only [ParseBitcodeInContext, C.CString, C.LLVMCreateMemoryBufferWithMemoryRangeCopy,
    C.LLVMParseBitcodeInContext2, runDeferred, C.LLVMDisposeMemoryBuffer, C.free,
    List.length_append, List.length_singleton, load_fresh_fst, load_fresh_snd,
    cstr_terminated]
  split <;> simp

/-! ## The claims -/

/-- Claim C1: for each of the three functions and every behaviour of the native
calls, either the one parse call returned status 0 and the result is the module
handle it wrote with a nil error, or no parse call returned status 0 and the result
is `Module{}` with a non-nil error (so a handle written by a failing parse is never
returned). -/
theorem C1_result_contract (N : Native B) (h : List (Option (List Byte))) (context : Context)
    (name bitcode : List Byte) :
    ((∃ r, parseCalls (ParseBitcodeFile N ⟨h, []⟩ name).2.trace = [r] ∧ r.status = 0 ∧
          (ParseBitcodeFile N ⟨h, []⟩ name).1 = (⟨r.OutModule⟩, none)) ∨
      ((∀ r ∈ parseCalls (ParseBitcodeFile N ⟨h, []⟩ name).2.trace, r.status ≠ 0) ∧
          ∃ msg, (ParseBitcodeFile N ⟨h, []⟩ name).1 = (Module.zero, some msg))) ∧
    ((∃ r, parseCalls (ParseBitcodeFileInContext N ⟨h, []⟩ context name).2.trace = [r] ∧
          r.status = 0 ∧
          (ParseBitcodeFileInContext N ⟨h, []⟩ context name).1 = (⟨r.OutModule⟩, none)) ∨
      ((∀ r ∈ parseCalls (ParseBitcodeFileInContext N ⟨h, []⟩ context name).2.trace,
            r.status ≠ 0) ∧
          ∃ msg, (ParseBitcodeFileInContext N ⟨h, []⟩ context name).1 =
            (Module.zero, some msg))) ∧
    ((∃ r, parseCalls (ParseBitcodeInContext N ⟨h, []⟩ context name bitcode).2.trace = [r] ∧
          r.status = 0 ∧
          (ParseBitcodeInContext N ⟨h, []⟩ context name bitcode).1 = (⟨r.OutModule⟩, none)) ∨
      ((∀ r ∈ parseCalls (ParseBitcodeInContext N ⟨h, []⟩ context name bitcode).2.trace,
            r.status ≠ 0) ∧
          ∃ msg, (ParseBitcodeInContext N ⟨h, []⟩ context name bitcode).1 =
            (Module.zero, some msg))) := by
  refine ⟨?_, ?_, ?_⟩
  · rw [ParseBitcodeFile_ret, ParseBitcodeFile_trace]
    by_cases hc : (N.LLVMCreateMemoryBufferWithContentsOfFile (cstr name)).status ≠ 0
    · right
      simp [hc, parseCalls, Event.parseOutcome]
    · by_cases hp : (N.LLVMParseBitcode2
          (N.LLVMCreateMemoryBufferWithContentsOfFile (cstr name)).OutMemBuf).status = 0
      · left
        simp [hc, hp, parseCalls, Event.parseOutcome]
      · right
        simp [hc, hp, parseCalls, Event.parseOutcome]
  · rw [ParseBitcodeFileInContext_ret, ParseBitcodeFileInContext_trace]
    by_cases hc : (N.LLVMCreateMemoryBufferWithContentsOfFile (cstr name)).status ≠ 0
    · right
      simp [hc, parseCalls, Event.parseOutcome]
    · by_cases hp : (N.LLVMParseBitcodeInContext2 context.C
          (N.LLVMCreateMemoryBufferWithContentsOfFile (cstr name)).OutMemBuf).status = 0
      · left
        simp [hc, hp, parseCalls, Event.parseOutcome]
      · right
        simp [hc, hp, parseCalls, Event.parseOutcome]
  · rw [ParseBitcodeInContext_ret N h [] context name bitcode _ rfl,
      ParseBitcodeInContext_trace N h context name bitcode _ rfl]
    by_cases hp : (N.LLVMParseBitcodeInContext2 context.C
        (N.LLVMCreateMemoryBufferWithMemoryRangeCopy
          ((bitcode ++ [0]).take (C.size_t (uint bitcode.length)))
          (C.size_t (uint bitcode.length)) (cstr name))).status = 0
    · left
      simp [hp, parseCalls, Event.parseOutcome]
    · right
      simp [hp, parseCalls, Event.parseOutcome]

/-- Claim C2: if the file-backed buffer constructor returns a non-zero status and
leaves the diagnostic C string `d`, then `ParseBitcodeFile` and
`ParseBitcodeFileInContext` return `Module{}` and an error whose message is exactly
`d`, and no parse entry point is called. -/
theorem C2_buffer_failure (N : Native B) (h : List (Option (List Byte))) (context : Context)
    (name d : List Byte) (r : FileBufferOutcome B) (hstatus : r.status ≠ 0)
    (hmsg : r.OutMessage = some (d ++ [0])) (hd : (0 : Byte) ∉ d) :
    (∀ P path, Event.LLVMCreateMemoryBufferWithContentsOfFile P path r ∈
        (ParseBitcodeFile N ⟨h, []⟩ name).2.trace →
      (ParseBitcodeFile N ⟨h, []⟩ name).1 = (Module.zero, some d) ∧
      parseCalls (ParseBitcodeFile N ⟨h, []⟩ name).2.trace = []) ∧
    (∀ P path, Event.LLVMCreateMemoryBufferWithContentsOfFile P path r ∈
        (ParseBitcodeFileInContext N ⟨h, []⟩ context name).2.trace →
      (ParseBitcodeFileInContext N ⟨h, []⟩ context name).1 = (Module.zero, some d) ∧
      parseCalls (ParseBitcodeFileInContext N ⟨h, []⟩ context name).2.trace = []) := by
  have hcstr : cstr ((some (d ++ [0]) : Option (List Byte)).getD []) = d := by
    show cstr (d ++ [0]) = d
    rw [cstr_terminated, cstr_eq_self d hd]
  constructor
  · intro P path hmem
    rw [ParseBitcodeFile_trace] at hmem ⊢
    rw [ParseBitcodeFile_ret]
    have hr : N.LLVMCreateMemoryBufferWithContentsOfFile (cstr name) = r := by
      by_cases hc : (N.LLVMCreateMemoryBufferWithContentsOfFile (cstr name)).status ≠ 0
      · simp [hc] at hmem
        exact hmem.2.2.symm
      · by_cases hp : (N.LLVMParseBitcode2
          (N.LLVMCreateMemoryBufferWithContentsOfFile (cstr name)).OutMemBuf).status = 0
        · simp [hc, hp] at hmem
          exact hmem.2.2.symm
        · simp [hc, hp] at hmem
          exact hmem.2.2.symm
    rw [hr, hmsg, hcstr]
    simp [hstatus, parseCalls, Event.parseOutcome]
  · intro P path hmem
    rw [ParseBitcodeFileInContext_trace] at hmem ⊢
    rw [ParseBitcodeFileInContext_ret]
    have hr : N.LLVMCreateMemoryBufferWithContentsOfFile (cstr name) = r := by
      by_cases hc : (N.LLVMCreateMemoryBufferWithContentsOfFile (cstr name)).status ≠ 0
      · simp [hc] at hmem
        exact hmem.2.2.symm
      · by_cases hp : (N.LLVMParseBitcodeInContext2 context.C
          (N.LLVMCreateMemoryBufferWithContentsOfFile (cstr name)).OutMemBuf).status = 0
        · simp [hc, hp] at hmem
          exact hmem.2.2.symm
        · simp [hc, hp] at hmem
          exact hmem.2.2.symm
    rw [hr, hmsg, hcstr]
    simp [hstatus, parseCalls, Event.parseOutcome]

/-- Witness of C2: opening the missing file `nope.bc` fails with the diagnostic
`No such file or directory`. -/
theorem C2_buffer_failure_witness :
    ((ParseBitcodeFile testDisk ⟨[], []⟩ (goBytes "nope.bc")).1 =
        (Module.zero, some (goBytes "No such file or directory")) ∧
      parseCalls (ParseBitcodeFile testDisk ⟨[], []⟩ (goBytes "nope.bc")).2.trace = []) ∧
    ((ParseBitcodeFileInContext testDisk ⟨[], []⟩ ⟨3⟩ (goBytes "nope.bc")).1 =
        (Module.zero, some (goBytes "No such file or directory")) ∧
      parseCalls (ParseBitcodeFileInContext testDisk ⟨[], []⟩ ⟨3⟩ (goBytes "nope.bc")).2.trace =
        []) :=
  have key := C2_buffer_failure testDisk [] ⟨3⟩ (goBytes "nope.bc")
    (goBytes "No such file or directory")
    ⟨1, none, some (goBytes "No such file or directory" ++ [0])⟩ (by decide) rfl (by decide)
  ⟨key.1 (some 0) (goBytes "nope.bc") (by decide), key.2 (some 0) (goBytes "nope.bc") (by decide)⟩

/-- Claim C3, evaluated on the code: `junk.bc` is read successfully (the constructor
leaves `errmsg` NULL) and the parser rejects its sixteen zero bytes with the
diagnostic `Invalid bitcode signature`.  `ParseBitcodeFile` and
`ParseBitcodeFileInContext` return an error whose message is empty: they read
`errmsg`, which only the buffer constructor was given, never the parser. -/
theorem C3_parse_failure_message_is_stale :
    (ParseBitcodeFile testDisk ⟨[], []⟩ (goBytes "junk.bc")).1 = (Module.zero, some []) ∧
    (ParseBitcodeFileInContext testDisk ⟨[], []⟩ ⟨3⟩ (goBytes "junk.bc")).1 =
      (Module.zero, some []) ∧
    parseCalls (ParseBitcodeFile testDisk ⟨[], []⟩ (goBytes "junk.bc")).2.trace =
      [⟨1, 9, goBytes "Invalid bitcode signature"⟩] ∧
    parseCalls (ParseBitcodeFileInContext testDisk ⟨[], []⟩ ⟨3⟩ (goBytes "junk.bc")).2.trace =
      [⟨1, 9, goBytes "Invalid bitcode signature"⟩] := by
  decide

/-- Claim C4: whenever the context-bound parse entry point returns a non-zero
status, `ParseBitcodeInContext` returns `Module{}` and the error
`failed to parse bitcode`, whatever the context, the name, the bytes and the
diagnostic of the library. -/
theorem C4_fixed_error (N : Native B) (h : List (Option (List Byte))) (context : Context)
    (name bitcode : List Byte) (c : Nat) (buf : Option B) (r : ParseOutcome)
    (hcall : Event.LLVMParseBitcodeInContext2 c buf r ∈
      (ParseBitcodeInContext N ⟨h, []⟩ context name bitcode).2.trace)
    (hstatus : r.status ≠ 0) :
    (ParseBitcodeInContext N ⟨h, []⟩ context name bitcode).1 =
      (Module.zero, some (goBytes "failed to parse bitcode")) := by
  rw [ParseBitcodeInContext_trace N h context name bitcode _ rfl] at hcall
  rw [ParseBitcodeInContext_ret N h [] context name bitcode _ rfl]
  simp at hcall
  obtain ⟨-, -, hr⟩ := hcall
  rw [hr] at hstatus
  rw [if_neg hstatus]

/-- Witness of C4: sixteen zero bytes, rejected by the test parser. -/
theorem C4_fixed_error_witness :
    (ParseBitcodeInContext testDisk ⟨[], []⟩ ⟨3⟩ (goBytes "zeros") (List.replicate 16 0)).1 =
      (Module.zero, some (goBytes "failed to parse bitcode")) :=
  C4_fixed_error testDisk [] ⟨3⟩ (goBytes "zeros") (List.replicate 16 0) 3
    (some (List.replicate 16 0)) ⟨1, 9, goBytes "Invalid bitcode signature"⟩
    (by decide) (by decide)

/-- Claim C5: in each of the three functions the trace satisfies the buffer
discipline: a buffer obtained from a constructor is passed to
`LLVMDisposeMemoryBuffer` exactly once, after the parse call has returned, whatever
status the parse returned; nothing else is disposed.  The bytes variant always
obtains a buffer. -/
theorem C5_buffer_disposed_once (N : Native B) (h : List (Option (List Byte)))
    (context : Context) (name bitcode : List Byte) :
    BufferDiscipline (ParseBitcodeFile N ⟨h, []⟩ name).2.trace ∧
    BufferDiscipline (ParseBitcodeFileInContext N ⟨h, []⟩ context name).2.trace ∧
    BufferDiscipline (ParseBitcodeInContext N ⟨h, []⟩ context name bitcode).2.trace ∧
    (obtained (ParseBitcodeInContext N ⟨h, []⟩ context name bitcode).2.trace).length = 1 := by
  refine ⟨?_, ?_, ?_, ?_⟩
  · rw [ParseBitcodeFile_trace]
    by_cases hc : (N.LLVMCreateMemoryBufferWithContentsOfFile (cstr name)).status ≠ 0
    · left
      simp [hc, obtained, parseCalls, disposed, Event.obtainedBuffer, Event.parseOutcome,
        Event.disposedBuffer]
    · right
      have hc0 : (N.LLVMCreateMemoryBufferWithContentsOfFile (cstr name)).status = 0 := by
        simpa using hc
      by_cases hp : (N.LLVMParseBitcode2
          (N.LLVMCreateMemoryBufferWithContentsOfFile (cstr name)).OutMemBuf).status = 0
      · refine ⟨[Event.CString name (some h.length),
            Event.LLVMCreateMemoryBufferWithContentsOfFile (some h.length) (cstr name)
              (N.LLVMCreateMemoryBufferWithContentsOfFile (cstr name))],
          Event.LLVMParseBitcode2 (N.LLVMCreateMemoryBufferWithContentsOfFile (cstr name)).OutMemBuf
            (N.LLVMParseBitcode2 (N.LLVMCreateMemoryBufferWithContentsOfFile (cstr name)).OutMemBuf),
          [], [Event.free (some h.length)],
          (N.LLVMCreateMemoryBufferWithContentsOfFile (cstr name)).OutMemBuf,
          N.LLVMParseBitcode2 (N.LLVMCreateMemoryBufferWithContentsOfFile (cstr name)).OutMemBuf,
          ?_⟩
        simp [hc0, hp, obtained, parseCalls, disposed, Event.obtainedBuffer, Event.parseOutcome,
          Event.disposedBuffer]
      · refine ⟨[Event.CString name (some h.length),
            Event.LLVMCreateMemoryBufferWithContentsOfFile (some h.length) (cstr name)
              (N.LLVMCreateMemoryBufferWithContentsOfFile (cstr name))],
          Event.LLVMParseBitcode2 (N.LLVMCreateMemoryBufferWithContentsOfFile (cstr name)).OutMemBuf
            (N.LLVMParseBitcode2 (N.LLVMCreateMemoryBufferWithContentsOfFile (cstr name)).OutMemBuf),
          [Event.free ((N.LLVMCreateMemoryBufferWithContentsOfFile (cstr name)).OutMessage.map
            fun _ => h.length + 1)],
          [Event.free (some h.length)],
          (N.LLVMCreateMemoryBufferWithContentsOfFile (cstr name)).OutMemBuf,
          N.LLVMParseBitcode2 (N.LLVMCreateMemoryBufferWithContentsOfFile (cstr name)).OutMemBuf,
          ?_⟩
        simp [hc0, hp, obtained, parseCalls, disposed, Event.obtainedBuffer, Event.parseOutcome,
          Event.disposedBuffer]
  · rw [ParseBitcodeFileInContext_trace]
    by_cases hc : (N.LLVMCreateMemoryBufferWithContentsOfFile (cstr name)).status ≠ 0
    · left
      simp [hc, obtained, parseCalls, disposed, Event.obtainedBuffer, Event.parseOutcome,
        Event.disposedBuffer]
    · right
      have hc0 : (N.LLVMCreateMemoryBufferWithContentsOfFile (cstr name)).status = 0 := by
        simpa using hc
      by_cases hp : (N.LLVMParseBitcodeInContext2 context.C
          (N.LLVMCreateMemoryBufferWithContentsOfFile (cstr name)).OutMemBuf).status = 0
      · refine ⟨[Event.CString name (some h.length),
            Event.LLVMCreateMemoryBufferWithContentsOfFile (some h.length) (cstr name)
              (N.LLVMCreateMemoryBufferWithContentsOfFile (cstr name))],
          Event.LLVMParseBitcodeInContext2 context.C
            (N.LLVMCreateMemoryBufferWithContentsOfFile (cstr name)).OutMemBuf
            (N.LLVMParseBitcodeInContext2 context.C
              (N.LLVMCreateMemoryBufferWithContentsOfFile (cstr name)).OutMemBuf),
          [], [Event.free (some h.length)],
          (N.LLVMCreateMemoryBufferWithContentsOfFile (cstr name)).OutMemBuf,
          N.LLVMParseBitcodeInContext2 context.C
            (N.LLVMCreateMemoryBufferWithContentsOfFile (cstr name)).OutMemBuf,
          ?_⟩
        simp [hc0, hp, obtained, parseCalls, disposed, Event.obtainedBuffer, Event.parseOutcome,
          Event.disposedBuffer]
      · refine ⟨[Event.CString name (some h.length),
            Event.LLVMCreateMemoryBufferWithContentsOfFile (some h.length) (cstr name)
              (N.LLVMCreateMemoryBufferWithContentsOfFile (cstr name))],
          Event.LLVMParseBitcodeInContext2 context.C
            (N.LLVMCreateMemoryBufferWithContentsOfFile (cstr name)).OutMemBuf
            (N.LLVMParseBitcodeInContext2 context.C
              (N.LLVMCreateMemoryBufferWithContentsOfFile (cstr name)).OutMemBuf),
          [Event.free ((N.LLVMCreateMemoryBufferWithContentsOfFile (cstr name)).OutMessage.map
            fun _ => h.length + 1)],
          [Event.free (some h.length)],
          (N.LLVMCreateMemoryBufferWithContentsOfFile (cstr name)).OutMemBuf,
          N.LLVMParseBitcodeInContext2 context.C
            (N.LLVMCreateMemoryBufferWithContentsOfFile (cstr name)).OutMemBuf,
          ?_⟩
        simp [hc0, hp, obtained, parseCalls, disposed, Event.obtainedBuffer, Event.parseOutcome,
          Event.disposedBuffer]
  · obtain ⟨buf, hbuf⟩ : ∃ buf, buf = N.LLVMCreateMemoryBufferWithMemoryRangeCopy
        ((bitcode ++ [0]).take (C.size_t (uint bitcode.length)))
        (C.size_t (uint bitcode.length)) (cstr name) := ⟨_, rfl⟩
    rw [ParseBitcodeInContext_trace N h context name bitcode buf hbuf]
    right
    refine ⟨[Event.CString name (some h.length), Event.CString bitcode (some (h.length + 1)),
        Event.LLVMCreateMemoryBufferWithMemoryRangeCopy (some (h.length + 1))
          ((bitcode ++ [0]).take (C.size_t (uint bitcode.length)))
          (C.size_t (uint bitcode.length)) (some h.length) (cstr name) buf],
      Event.LLVMParseBitcodeInContext2 context.C buf (N.LLVMParseBitcodeInContext2 context.C buf),
      [], [Event.free (some (h.length + 1)), Event.free (some h.length)], buf,
      N.LLVMParseBitcodeInContext2 context.C buf, ?_⟩
    simp [obtained, parseCalls, disposed, Event.obtainedBuffer, Event.parseOutcome,
      Event.disposedBuffer]
  · rw [ParseBitcodeInContext_trace N h context name bitcode _ rfl]
    simp [obtained, Event.obtainedBuffer]

/-- Claim C6: if the status of both parse entry points is a function `f` of the
contents of the buffer, the copy constructor yields a buffer holding the range it
was given, and the file read by `ParseBitcodeFile` has contents `b`, then a nil
error from `ParseBitcodeFile` implies a nil error from
`ParseBitcodeInContext(ctx, name, b)`. -/
theorem C6_round_trip (N : Native B) (contents : Option B → List Byte) (f : List Byte → Int)
    (h h2 : List (Option (List Byte))) (context : Context) (path name b : List Byte)
    (hparse : ∀ buf, (N.LLVMParseBitcode2 buf).status = f (contents buf))
    (hparseCtx : ∀ c buf, (N.LLVMParseBitcodeInContext2 c buf).status = f (contents buf))
    (hcopy : ∀ range len nm,
      contents (N.LLVMCreateMemoryBufferWithMemoryRangeCopy range len nm) = range)
    (hfile : ∀ P p r, Event.LLVMCreateMemoryBufferWithContentsOfFile P p r ∈
        (ParseBitcodeFile N ⟨h, []⟩ path).2.trace → r.status = 0 → contents r.OutMemBuf = b)
    (hlen : b.length < 2 ^ 63)
    (hok : (ParseBitcodeFile N ⟨h, []⟩ path).1.2 = none) :
    (ParseBitcodeInContext N ⟨h2, []⟩ context name b).1.2 = none := by
  rw [ParseBitcodeInContext_ret N h2 [] context name b _ rfl, hparseCtx, hcopy,
    csize_eq _ hlen, take_terminated]
  rw [ParseBitcodeFile_ret] at hok
  rw [ParseBitcodeFile_trace] at hfile
  by_cases hc : (N.LLVMCreateMemoryBufferWithContentsOfFile (cstr path)).status ≠ 0
  · simp [hc] at hok
  · have hc0 : (N.LLVMCreateMemoryBufferWithContentsOfFile (cstr path)).status = 0 := by
      simpa using hc
    by_cases hp : (N.LLVMParseBitcode2
        (N.LLVMCreateMemoryBufferWithContentsOfFile (cstr path)).OutMemBuf).status = 0
    · have hb := hfile (some h.length) (cstr path)
        (N.LLVMCreateMemoryBufferWithContentsOfFile (cstr path)) (by simp) hc0
      rw [hparse, hb] at hp
      rw [if_pos hp]
    · simp [hc0, hp] at hok

/-- Witness of C6: the file `a.bc` holds `bitcodeMagic`; both variants succeed. -/
theorem C6_round_trip_witness :
    (ParseBitcodeFile testDisk ⟨[], []⟩ (goBytes "a.bc")).1.2 = none ∧
    (ParseBitcodeInContext testDisk ⟨[], []⟩ ⟨3⟩ (goBytes "copy") bitcodeMagic).1.2 = none :=
  ⟨by decide,
    C6_round_trip testDisk (fun buf => buf.getD [])
      (fun c => if c = bitcodeMagic then 0 else 1) [] [] ⟨3⟩ (goBytes "a.bc") (goBytes "copy")
      bitcodeMagic
      (by
        intro buf
        cases buf with
        | none => decide
        | some x =>
          by_cases hx : x = bitcodeMagic
          · subst hx; decide
          · simp [testDisk, testParse, hx])
      (by
        intro c buf
        cases buf with
        | none => rfl
        | some x =>
          by_cases hx : x = bitcodeMagic
          · subst hx; rfl
          · simp [testDisk, testParse, hx])
      (by intro range len nm; rfl)
      (by
        intro P p r hmem hs
        rw [ParseBitcodeFile_trace] at hmem
        have hr : r = testDisk.LLVMCreateMemoryBufferWithContentsOfFile (cstr (goBytes "a.bc")) := by
          by_cases hc : (testDisk.LLVMCreateMemoryBufferWithContentsOfFile
              (cstr (goBytes "a.bc"))).status ≠ 0
          · exact absurd hc (by decide)
          · by_cases hp : (testDisk.LLVMParseBitcode2
                (testDisk.LLVMCreateMemoryBufferWithContentsOfFile
                  (cstr (goBytes "a.bc"))).OutMemBuf).status = 0
            · simp only [hc, hp, if_true, if_false] at hmem
              simp at hmem
              exact hmem.2.2
            · exact absurd hp (by decide)
        subst hr
        decide)
      (by decide) (by decide)⟩

/-- Claim C7: for every byte sequence `b` a Go slice can hold (length below 2^63),
`ParseBitcodeInContext` calls the copy constructor once, with the pointer returned
by `C.CString(string(b))` (a block allocated during the call, not one that existed
before), a range whose bytes are exactly `b` and the length `len(b)`. -/
theorem C7_copy_range (N : Native B) (h : List (Option (List Byte))) (context : Context)
    (name b : List Byte) (hlen : b.length < 2 ^ 63) :
    ∃ a, h.length ≤ a ∧
      Event.CString b (some a) ∈ (ParseBitcodeInContext N ⟨h, []⟩ context name b).2.trace ∧
      copyRanges (ParseBitcodeInContext N ⟨h, []⟩ context name b).2.trace =
        [(some a, b, b.length)] := by
  refine ⟨h.length + 1, by omega, ?_, ?_⟩
  · rw [ParseBitcodeInContext_trace N h context name b _ rfl]
    simp
  · rw [ParseBitcodeInContext_trace N h context name b _ rfl, csize_eq _ hlen, take_terminated]
    simp [copyRanges, Event.copyRange]

/-- Witness of C7: a byte sequence with an embedded zero byte. -/
theorem C7_copy_range_witness :
    ∃ a, 0 ≤ a ∧
      Event.CString [1, 0, 2] (some a) ∈
        (ParseBitcodeInContext testDisk ⟨[], []⟩ ⟨3⟩ (goBytes "m") [1, 0, 2]).2.trace ∧
      copyRanges (ParseBitcodeInContext testDisk ⟨[], []⟩ ⟨3⟩ (goBytes "m") [1, 0, 2]).2.trace =
        [(some a, [1, 0, 2], 3)] :=
  C7_copy_range testDisk [] ⟨3⟩ (goBytes "m") [1, 0, 2] (by decide)

/-- Claim C8 as stated fails: with a copy constructor that yields a NULL handle,
`ParseBitcodeInContext` still calls the parse entry point, passing it NULL. -/
theorem C8_null_buffer_is_parsed :
    obtained (ParseBitcodeInContext testNullCopy ⟨[], []⟩ ⟨3⟩ (goBytes "m")
      bitcodeMagic).2.trace = [none] ∧
    Event.LLVMParseBitcodeInContext2 3 none ⟨1, 9, goBytes "Invalid bitcode signature"⟩ ∈
      (ParseBitcodeInContext testNullCopy ⟨[], []⟩ ⟨3⟩ (goBytes "m") bitcodeMagic).2.trace := by
  decide

/-- Claim C8, amended: `ParseBitcodeInContext` does not inspect the handle the copy
constructor returns.  Whatever it is, NULL included, the context-bound parse entry
point is called exactly once, with that handle, and the result is decided by the
status of that call alone. -/
theorem C8_parse_always_invoked (N : Native B) (h : List (Option (List Byte)))
    (context : Context) (name bitcode : List Byte) :
    ∃ buf, obtained (ParseBitcodeInContext N ⟨h, []⟩ context name bitcode).2.trace = [buf] ∧
      (ParseBitcodeInContext N ⟨h, []⟩ context name bitcode).2.trace.filter
          (fun e => e.parseOutcome.isSome) =
        [Event.LLVMParseBitcodeInContext2 context.C buf
          (N.LLVMParseBitcodeInContext2 context.C buf)] ∧
      (ParseBitcodeInContext N ⟨h, []⟩ context name bitcode).1 =
        if (N.LLVMParseBitcodeInContext2 context.C buf).status = 0 then
          (⟨(N.LLVMParseBitcodeInContext2 context.C buf).OutModule⟩, none)
        else (Module.zero, some (goBytes "failed to parse bitcode")) := by
  refine ⟨N.LLVMCreateMemoryBufferWithMemoryRangeCopy
    ((bitcode ++ [0]).take (C.size_t (uint bitcode.length)))
    (C.size_t (uint bitcode.length)) (cstr name), ?_, ?_, ?_⟩
  · rw [ParseBitcodeInContext_trace N h context name bitcode _ rfl]
    simp [obtained, Event.obtainedBuffer]
  · rw [ParseBitcodeInContext_trace N h context name bitcode _ rfl]
    simp [List.filter, Event.parseOutcome]
  · exact ParseBitcodeInContext_ret N h [] context name bitcode _ rfl

/-- Claim C9: `ParseBitcodeFileInContext` is `ParseBitcodeFile` with the context-free
parse entry point replaced by the context-bound one applied to the caller's context
handle: same result, and the same trace once each parse call is relabelled.  So if
the two entry points return the same status and module handle for the buffer built
from the file, both functions return the same result and make the same calls apart
from the parse call. -/
theorem C9_only_entry_point_differs (N : Native B) (h : List (Option (List Byte)))
    (context : Context) (name : List Byte)
    (hsame : ∀ P path r, Event.LLVMCreateMemoryBufferWithContentsOfFile P path r ∈
        (ParseBitcodeFile N ⟨h, []⟩ name).2.trace →
      (N.LLVMParseBitcode2 r.OutMemBuf).status =
          (N.LLVMParseBitcodeInContext2 context.C r.OutMemBuf).status ∧
        (N.LLVMParseBitcode2 r.OutMemBuf).OutModule =
          (N.LLVMParseBitcodeInContext2 context.C r.OutMemBuf).OutModule) :
    (ParseBitcodeFileInContext N ⟨h, []⟩ context name).1 =
      (ParseBitcodeFile { N with LLVMParseBitcode2 := N.LLVMParseBitcodeInContext2 context.C }
        ⟨h, []⟩ name).1 ∧
    (ParseBitcodeFileInContext N ⟨h, []⟩ context name).2.trace =
      (ParseBitcodeFile { N with LLVMParseBitcode2 := N.LLVMParseBitcodeInContext2 context.C }
        ⟨h, []⟩ name).2.trace.map (Event.bindContext context.C) ∧
    (ParseBitcodeFileInContext N ⟨h, []⟩ context name).1 = (ParseBitcodeFile N ⟨h, []⟩ name).1 ∧
    nonParse (ParseBitcodeFileInContext N ⟨h, []⟩ context name).2.trace =
      nonParse (ParseBitcodeFile N ⟨h, []⟩ name).2.trace := by
  have hmem : Event.LLVMCreateMemoryBufferWithContentsOfFile (some h.length) (cstr name)
      (N.LLVMCreateMemoryBufferWithContentsOfFile (cstr name)) ∈
        (ParseBitcodeFile N ⟨h, []⟩ name).2.trace := by
    rw [ParseBitcodeFile_trace]
    simp
  obtain ⟨hst, hmod⟩ := hsame _ _ _ hmem
  refine ⟨?_, ?_, ?_, ?_⟩
  · rw [ParseBitcodeFileInContext_ret, ParseBitcodeFile_ret]
  · rw [ParseBitcodeFileInContext_trace, ParseBitcodeFile_trace]
    by_cases hc : (N.LLVMCreateMemoryBufferWithContentsOfFile (cstr name)).status ≠ 0
    · simp [hc, Event.bindContext]
    · by_cases hp : (N.LLVMParseBitcodeInContext2 context.C
          (N.LLVMCreateMemoryBufferWithContentsOfFile (cstr name)).OutMemBuf).status = 0
      · simp [hc, hp, Event.bindContext]
      · simp [hc, hp, Event.bindContext]
  · rw [ParseBitcodeFileInContext_ret, ParseBitcodeFile_ret, hst, hmod]
  · rw [ParseBitcodeFileInContext_trace, ParseBitcodeFile_trace, hst]
    by_cases hc : (N.LLVMCreateMemoryBufferWithContentsOfFile (cstr name)).status ≠ 0
    · simp [hc]
    · by_cases hp : (N.LLVMParseBitcodeInContext2 context.C
          (N.LLVMCreateMemoryBufferWithContentsOfFile (cstr name)).OutMemBuf).status = 0
      · simp [hc, hp, nonParse, List.filter, Event.parseOutcome]
      · simp [hc, hp, nonParse, List.filter, Event.parseOutcome]

/-- Witness of C9: on `a.bc` both entry points of the test library accept the
buffer and write the same handle. -/
theorem C9_only_entry_point_differs_witness :
    (ParseBitcodeFileInContext testDisk ⟨[], []⟩ ⟨3⟩ (goBytes "a.bc")).1 =
      (ParseBitcodeFile testDisk ⟨[], []⟩ (goBytes "a.bc")).1 ∧
    nonParse (ParseBitcodeFileInContext testDisk ⟨[], []⟩ ⟨3⟩ (goBytes "a.bc")).2.trace =
      nonParse (ParseBitcodeFile testDisk ⟨[], []⟩ (goBytes "a.bc")).2.trace :=
  (C9_only_entry_point_differs testDisk [] ⟨3⟩ (goBytes "a.bc")
    (fun _ _ _ _ => ⟨rfl, rfl⟩)).2.2

/-- Claim C10: the file-backed buffer constructor is presented with the prefix of
the path before its first zero byte when the path has one and with the whole path
otherwise, in both file variants; so two paths that agree up to their first zero
byte give the same result. -/
theorem C10_path_cut_at_zero (N : Native B) (h : List (Option (List Byte)))
    (context : Context) (name name2 : List Byte) (hagree : cstr name = cstr name2) :
    filePaths (ParseBitcodeFile N ⟨h, []⟩ name).2.trace =
      [if (0 : Byte) ∈ name then name.takeWhile (fun c => c != 0) else name] ∧
    filePaths (ParseBitcodeFileInContext N ⟨h, []⟩ context name).2.trace =
      [if (0 : Byte) ∈ name then name.takeWhile (fun c => c != 0) else name] ∧
    (ParseBitcodeFile N ⟨h, []⟩ name).1 = (ParseBitcodeFile N ⟨h, []⟩ name2).1 ∧
    (ParseBitcodeFileInContext N ⟨h, []⟩ context name).1 =
      (ParseBitcodeFileInContext N ⟨h, []⟩ context name2).1 := by
  have hcut : (if (0 : Byte) ∈ name then name.takeWhile (fun c => c != 0) else name) =
      cstr name := by
    by_cases h0 : (0 : Byte) ∈ name
    · rw [if_pos h0]; rfl
    · rw [if_neg h0, cstr_eq_self name h0]
  refine ⟨?_, ?_, ?_, ?_⟩
  · rw [ParseBitcodeFile_trace, hcut]
    by_cases hc : (N.LLVMCreateMemoryBufferWithContentsOfFile (cstr name)).status ≠ 0
    · simp [hc, filePaths, Event.filePath]
    · by_cases hp : (N.LLVMParseBitcode2
          (N.LLVMCreateMemoryBufferWithContentsOfFile (cstr name)).OutMemBuf).status = 0
      · simp [hc, hp, filePaths, Event.filePath]
      · simp [hc, hp, filePaths, Event.filePath]
  · rw [ParseBitcodeFileInContext_trace, hcut]
    by_cases hc : (N.LLVMCreateMemoryBufferWithContentsOfFile (cstr name)).status ≠ 0
    · simp [hc, filePaths, Event.filePath]
    · by_cases hp : (N.LLVMParseBitcodeInContext2 context.C
          (N.LLVMCreateMemoryBufferWithContentsOfFile (cstr name)).OutMemBuf).status = 0
      · simp [hc, hp, filePaths, Event.filePath]
      · simp [hc, hp, filePaths, Event.filePath]
  · rw [ParseBitcodeFile_ret, ParseBitcodeFile_ret, hagree]
  · rw [ParseBitcodeFileInContext_ret, ParseBitcodeFileInContext_ret, hagree]

/-- Witness of C10: the path `a.bc`, a zero byte, `junk` opens `a.bc`. -/
theorem C10_path_cut_at_zero_witness :
    filePaths (ParseBitcodeFile testDisk ⟨[], []⟩
      (goBytes "a.bc" ++ [0] ++ goBytes "junk")).2.trace = [goBytes "a.bc"] ∧
    (ParseBitcodeFile testDisk ⟨[], []⟩ (goBytes "a.bc" ++ [0] ++ goBytes "junk")).1 =
      (ParseBitcodeFile testDisk ⟨[], []⟩ (goBytes "a.bc")).1 :=
  have key := C10_path_cut_at_zero testDisk [] ⟨3⟩ (goBytes "a.bc" ++ [0] ++ goBytes "junk")
    (goBytes "a.bc") (by decide)
  ⟨key.1.trans (by decide), key.2.2.1⟩

end llvm
